import Mathlib

/-!
Shallow embedding of the ResiGuard visitor-management application
(src/index.tsx) and verification of its specification claims.

Modelling conventions:
* JavaScript strings are Lean `String`s.  Because the built-in
  `String.trim`, `String.toUpper` and string ordering do not reduce in the
  kernel, the corresponding JS operations are re-implemented here over
  `String.data` (a `List Char`), with the same behaviour on the data the
  application handles.
* `new Date()` instants (stored in the code as ISO strings, whose
  lexicographic order agrees with chronological order) are modelled as
  natural numbers.
* The application mutates a single global state through event handlers and
  re-renders the whole DOM after every mutation (`setState` calls `render`
  synchronously).  Event handlers that the DOM can only dispatch from
  role- or status-gated buttons are therefore modelled in two layers: the
  raw handler exactly as written (e.g. `handleApprove`), and the gated
  operation (`approveOp` etc.) that composes the handler with the guard
  under which `renderVisitorsGrid` / `renderApprovalModal` /
  `renderChatbot` render the button or form that can dispatch it.
-/

/-- Whitespace test used to model `String.prototype.trim`. -/
def jsIsWS (c : Char) : Bool := c.isWhitespace

/-- Model of JS `s.trim()`: drop whitespace from both ends. -/
def strTrim (s : String) : String :=
  ⟨(((s.data.dropWhile jsIsWS).reverse.dropWhile jsIsWS).reverse)⟩

/-- Model of JS `s.toUpperCase()` (the app only upper-cases ASCII data). -/
def strUpper (s : String) : String := ⟨s.data.map Char.toUpper⟩

/-- Visitor lifecycle status, `type VisitorStatus` in src/index.tsx. -/
inductive VStatus
  | Pending
  | Approved
  | Rejected
  | CheckedIn
  | CheckedOut
deriving DecidableEq

/-- Actor roles, `type UserRole` in src/index.tsx. -/
inductive Role
  | Admin
  | Security
  | Officer
  | Resident
deriving DecidableEq

/-- `interface Visitor` of src/index.tsx, with instants as naturals. -/
structure Visitor where
  id : Nat
  name : String
  contact : String
  purpose : String
  resident : String
  block : String
  houseNo : String
  vehicle : String
  carBrand : String
  photo : Option String
  status : VStatus
  checkInTime : Option Nat
  checkOutTime : Option Nat
deriving DecidableEq

/-- `interface User` of src/index.tsx. -/
structure User where
  id : Nat
  username : String
  password : String
  role : Role
  unitNo : Option String
deriving DecidableEq

/-- `interface PredefinedUnit` of src/index.tsx. -/
structure PredefinedUnit where
  block : String
  houseNo : String
deriving DecidableEq

/-- Message sender tag of `type ChatMessage`. -/
inductive Sender
  | user
  | bot
  | admin
deriving DecidableEq

/-- `type ChatMessage` of src/index.tsx. -/
structure ChatMessage where
  sender : Sender
  text : String
deriving DecidableEq

/-- `interface PendingChat` of src/index.tsx. -/
structure PendingChat where
  id : Nat
  userId : Option Nat
  userName : String
  unit : String
  initialQuery : String
  messages : List ChatMessage
  dismissed : Bool
  adminReplied : Bool
deriving DecidableEq

/-- The ids of a list of records keyed by `key` are pairwise distinct. -/
def idsNodup {α : Type} (key : α → Nat) (l : List α) : Prop :=
  (l.map key).Nodup

instance {α : Type} (key : α → Nat) (l : List α) : Decidable (idsNodup key l) :=
  inferInstanceAs (Decidable (l.map key).Nodup)

/-- `handleApprove` (src/index.tsx:399-407): unconditionally maps the
matching visitor to status Approved. -/
def handleApprove (id : Nat) (vs : List Visitor) : List Visitor :=
  vs.map fun v => if v.id = id then { v with status := VStatus.Approved } else v

/-- `handleReject` (src/index.tsx:409-417). -/
def handleReject (id : Nat) (vs : List Visitor) : List Visitor :=
  vs.map fun v => if v.id = id then { v with status := VStatus.Rejected } else v

/-- `handleCheckIn` (src/index.tsx:381-388): stamps `checkInTime` with the
current instant `now`. -/
def handleCheckIn (now : Nat) (id : Nat) (vs : List Visitor) : List Visitor :=
  vs.map fun v =>
    if v.id = id then
      { v with status := VStatus.CheckedIn, checkInTime := some now }
    else v

/-- `handleCheckOut` (src/index.tsx:390-397): stamps `checkOutTime`. -/
def handleCheckOut (now : Nat) (id : Nat) (vs : List Visitor) : List Visitor :=
  vs.map fun v =>
    if v.id = id then
      { v with status := VStatus.CheckedOut, checkOutTime := some now }
    else v

/-- The form fields read by `handleFormSubmit` (src/index.tsx:338-379). -/
structure VisitorForm where
  name : String
  contact : String
  purpose : String
  block : String
  houseNo : String
  vehicle : String
  carBrand : String
  photo : Option String
deriving DecidableEq

/-- The new-visitor record built by the register branch of
`handleFormSubmit` (src/index.tsx:368-371): fields are trimmed and
upper-cased as in the source, status starts at Pending, no timestamps. -/
def mkVisitor (id : Nat) (f : VisitorForm) : Visitor :=
  let block := strUpper (strTrim f.block)
  let houseNo := strTrim f.houseNo
  { id := id
    name := strUpper (strTrim f.name)
    contact := strTrim f.contact
    purpose := strUpper (strTrim f.purpose)
    resident := block ++ "-" ++ houseNo
    block := block
    houseNo := houseNo
    vehicle := strUpper (strTrim f.vehicle)
    carBrand := strUpper (strTrim f.carBrand)
    photo := f.photo
    status := VStatus.Pending
    checkInTime := none
    checkOutTime := none }

/-- The edit branch of `handleFormSubmit` (src/index.tsx:355-366) applied
to one visitor: non-status fields are replaced, `photo` only when a new
capture exists (`photo: photo || v.photo`), and `id`, `status`,
`checkInTime`, `checkOutTime` are untouched. -/
def applyEdit (f : VisitorForm) (v : Visitor) : Visitor :=
  let block := strUpper (strTrim f.block)
  let houseNo := strTrim f.houseNo
  { v with
    name := strUpper (strTrim f.name)
    contact := strTrim f.contact
    purpose := strUpper (strTrim f.purpose)
    resident := block ++ "-" ++ houseNo
    block := block
    houseNo := houseNo
    vehicle := strUpper (strTrim f.vehicle)
    carBrand := strUpper (strTrim f.carBrand)
    photo := match f.photo with
      | some p => some p
      | none => v.photo }

/-- `canApprove` of `renderVisitorsGrid` (src/index.tsx:1066):
`['Admin', 'Officer'].includes(currentUser.role)`. -/
def canApprove : Role → Bool
  | Role.Admin => true
  | Role.Officer => true
  | _ => false

/-- `canCheckIn` of `renderVisitorsGrid` (src/index.tsx:1067):
`['Admin', 'Security'].includes(currentUser.role)`. -/
def canCheckIn : Role → Bool
  | Role.Admin => true
  | Role.Security => true
  | _ => false

/-- `canEdit` of `renderVisitorsGrid` (src/index.tsx:1065). -/
def canEdit : Role → Bool
  | Role.Admin => true
  | Role.Officer => true
  | _ => false

/-- Gate of the register button (src/index.tsx:1030):
`['Admin', 'Officer', 'Security'].includes(role)`. -/
def canRegister : Role → Bool
  | Role.Admin => true
  | Role.Officer => true
  | Role.Security => true
  | _ => false

/-- Approve as invocable through the UI: `renderVisitorsGrid` renders the
approve button only when `visitor.status === 'Pending' && canApprove`
(src/index.tsx:1095), and `renderApprovalModal` lists only visitors
filtered to status Pending (src/index.tsx:1331); with no button rendered,
`handleApprove` cannot be dispatched and the state is unchanged. -/
def approveOp (r : Role) (id : Nat) (vs : List Visitor) : List Visitor :=
  if canApprove r && vs.any (fun v => v.id == id && decide (v.status = VStatus.Pending)) then
    handleApprove id vs
  else vs

/-- Reject as invocable through the UI (src/index.tsx:1096, 1331). -/
def rejectOp (r : Role) (id : Nat) (vs : List Visitor) : List Visitor :=
  if canApprove r && vs.any (fun v => v.id == id && decide (v.status = VStatus.Pending)) then
    handleReject id vs
  else vs

/-- Check-in as invocable through the UI: the button exists only when
`visitor.status === 'Approved' && canCheckIn` (src/index.tsx:1097). -/
def checkInOp (r : Role) (now : Nat) (id : Nat) (vs : List Visitor) : List Visitor :=
  if canCheckIn r && vs.any (fun v => v.id == id && decide (v.status = VStatus.Approved)) then
    handleCheckIn now id vs
  else vs

/-- Check-out as invocable through the UI: the button exists only when
`visitor.status === 'Checked-in' && canCheckIn` (src/index.tsx:1098). -/
def checkOutOp (r : Role) (now : Nat) (id : Nat) (vs : List Visitor) : List Visitor :=
  if canCheckIn r && vs.any (fun v => v.id == id && decide (v.status = VStatus.CheckedIn)) then
    handleCheckOut now id vs
  else vs

/-- Edit as invocable through the UI: the edit button and hence the edit
modal are gated on `canEdit` only (src/index.tsx:1099), any status. -/
def editOp (r : Role) (id : Nat) (f : VisitorForm) (vs : List Visitor) : List Visitor :=
  if canEdit r then
    vs.map fun v => if v.id = id then applyEdit f v else v
  else vs

/-- Register as invocable through the UI: the register button is rendered
for Admin, Officer and Security (src/index.tsx:1030); the register branch
of `handleFormSubmit` prepends the new Pending visitor. -/
def registerOp (r : Role) (id : Nat) (f : VisitorForm) (vs : List Visitor) : List Visitor :=
  if canRegister r then mkVisitor id f :: vs else vs

/-- One visitor-lifecycle operation of the UI. -/
inductive Op
  | register (id : Nat) (f : VisitorForm)
  | approve (id : Nat)
  | reject (id : Nat)
  | checkIn (id : Nat)
  | checkOut (id : Nat)
  | edit (id : Nat) (f : VisitorForm)
deriving DecidableEq

/-- An operation attempt: the acting role, the instant at which it
happens, and the operation. -/
structure Call where
  role : Role
  time : Nat
  op : Op
deriving DecidableEq

/-- Dispatch of one gated operation on the visitors collection. -/
def applyCall (vs : List Visitor) (c : Call) : List Visitor :=
  match c.op with
  | Op.register id f => registerOp c.role id f vs
  | Op.approve id => approveOp c.role id vs
  | Op.reject id => rejectOp c.role id vs
  | Op.checkIn id => checkInOp c.role c.time id vs
  | Op.checkOut id => checkOutOp c.role c.time id vs
  | Op.edit id f => editOp c.role id f vs

/-- A sequence of gated operations, applied left to right. -/
def applySeq (vs : List Visitor) : List Call → List Visitor
  | [] => vs
  | c :: cs => applySeq (applyCall vs c) cs

/-- The status of the visitor with the given id, when it exists. -/
def statusOf (id : Nat) (vs : List Visitor) : Option VStatus :=
  (vs.find? fun v => v.id == id).map Visitor.status

/-- The `checkInTime` stamp of the visitor with the given id. -/
def checkInTimeOf (id : Nat) (vs : List Visitor) : Option Nat :=
  (vs.find? fun v => v.id == id).bind Visitor.checkInTime

/-- The `checkOutTime` stamp of the visitor with the given id. -/
def checkOutTimeOf (id : Nat) (vs : List Visitor) : Option Nat :=
  (vs.find? fun v => v.id == id).bind Visitor.checkOutTime

/-- A register call uses an id not already present (`Date.now()` produces
time-based ids the data model declares unique). -/
def callFresh (vs : List Visitor) (c : Call) : Bool :=
  match c.op with
  | Op.register id _ => vs.all fun v => !(v.id == id)
  | _ => true

/-- Every register call in the sequence is fresh for the state it sees. -/
def seqFresh (vs : List Visitor) : List Call → Bool
  | [] => true
  | c :: cs => callFresh vs c && seqFresh (applyCall vs c) cs

/-- The call times are nondecreasing and start no earlier than `t0`
(modelling that `new Date()` advances monotonically). -/
def callsMono : Nat → List Call → Bool
  | _, [] => true
  | t0, c :: cs => decide (t0 ≤ c.time) && callsMono c.time cs

/-- `o` is bounded by `n` when present. -/
def optLeB : Option Nat → Nat → Bool
  | none, _ => true
  | some t, n => decide (t ≤ n)

/-- Timestamp sanity of one visitor at instant `now`: stamps do not lie in
the future, visitors that have not reached Checked-in (Pending or
Approved) carry no `checkOutTime`, and stamps are ordered. -/
def visitorTimeOK (now : Nat) (v : Visitor) : Bool :=
  optLeB v.checkInTime now &&
  optLeB v.checkOutTime now &&
  (!(decide (v.status = VStatus.Pending) || decide (v.status = VStatus.Approved)) ||
      v.checkOutTime.isNone) &&
  (match v.checkInTime, v.checkOutTime with
    | some a, some b => decide (a ≤ b)
    | _, _ => true)

/-- Timestamp sanity of the whole collection at instant `now`. -/
def timeInv (now : Nat) (vs : List Visitor) : Bool :=
  vs.all (visitorTimeOK now)

/-- Every visitor carrying both stamps has `checkInTime ≤ checkOutTime`. -/
def stampsOrdered (vs : List Visitor) : Bool :=
  vs.all fun v =>
    match v.checkInTime, v.checkOutTime with
    | some a, some b => decide (a ≤ b)
    | _, _ => true

/-- Number of users with role Admin, as counted by
`state.users.filter(u => u.role === 'Admin').length`. -/
def countAdmins (users : List User) : Nat :=
  (users.filter fun u => decide (u.role = Role.Admin)).length

/-- `handleDeleteUser` (src/index.tsx:504-526), with the browser
`confirm` dialog answered affirmatively: a missing target, a self-target
or a sole-remaining-Admin target leaves the list unchanged, otherwise the
target is filtered out. -/
def handleDeleteUser (selfId : Nat) (targetId : Nat) (users : List User) : List User :=
  match users.find? fun u => u.id == targetId with
  | none => users
  | some u =>
    if u.id = selfId then users
    else if u.role = Role.Admin ∧ countAdmins users ≤ 1 then users
    else users.filter fun x => !(x.id == targetId)

/-- Outcome of `handleRoleChange` (src/index.tsx:528-553). -/
inductive RoleChangeOutcome
  | noTarget
  | lastAdminProtected
  | changed (users : List User)
deriving DecidableEq

/-- `handleRoleChange` (src/index.tsx:528-553): a falsy parsed user id
returns immediately; a self role-change away from Admin while the Admin
count is at most 1 is refused with the last-administrator alert;
otherwise the new role is applied to the matching user. -/
def handleRoleChange (selfId : Nat) (targetId : Nat) (newRole : Role)
    (users : List User) : RoleChangeOutcome :=
  if targetId = 0 then RoleChangeOutcome.noTarget
  else if targetId = selfId ∧ newRole ≠ Role.Admin ∧ countAdmins users ≤ 1 then
    RoleChangeOutcome.lastAdminProtected
  else
    RoleChangeOutcome.changed
      (users.map fun u => if u.id = targetId then { u with role := newRole } else u)

/-- The user list after `handleRoleChange`: unchanged unless the change
was applied. -/
def usersAfterRoleChange (selfId : Nat) (targetId : Nat) (newRole : Role)
    (users : List User) : List User :=
  match handleRoleChange selfId targetId newRole users with
  | RoleChangeOutcome.changed l => l
  | _ => users

/-- The role of the user with the given id, when it exists. -/
def roleOf (id : Nat) (users : List User) : Option Role :=
  (users.find? fun u => u.id == id).map User.role

/-- Maximal chunks of a house-number string: digit runs and text runs,
modelling what `localeCompare(..., { numeric: true })` compares. -/
inductive Chunk
  | digits (ds : List Char)
  | text (ts : List Char)
deriving DecidableEq

/-- Prepend one character to a chunk list, merging into a leading run of
the same kind. -/
def pushChar (c : Char) (acc : List Chunk) : List Chunk :=
  if c.isDigit then
    match acc with
    | Chunk.digits ds :: rest => Chunk.digits (c :: ds) :: rest
    | _ => Chunk.digits [c] :: acc
  else
    match acc with
    | Chunk.text ts :: rest => Chunk.text (c :: ts) :: rest
    | _ => Chunk.text [c] :: acc

/-- Split a character list into maximal digit/text runs. -/
def chunksOf (cs : List Char) : List Chunk :=
  cs.foldr pushChar []

/-- Numeric value of a digit run. -/
def digitsToNat (ds : List Char) : Nat :=
  ds.foldl (fun n c => n * 10 + (c.toNat - 48)) 0

/-- Collation key of one chunk: numeric runs compare by value and sort
before text runs, text runs compare lexicographically, as in numeric
collation where "9" < "10" and digits precede letters. -/
def chunkKey : Chunk → (Nat ⊕ₗ (List Char))
  | Chunk.digits ds => toLex (Sum.inl (digitsToNat ds))
  | Chunk.text ts => toLex (Sum.inr ts)

/-- Collation key of a house-number string under
`localeCompare(undefined, { numeric: true })`. -/
def houseKey (s : String) : List (Nat ⊕ₗ (List Char)) :=
  (chunksOf s.data).map chunkKey

/-- Sort key of the comparator in `handleAddUnitSubmit`
(src/index.tsx:580-583): block first (lexicographic string order),
house number second (numeric-aware order). -/
def unitKey (u : PredefinedUnit) : (List Char) ×ₗ (List (Nat ⊕ₗ (List Char))) :=
  toLex (u.block.data, houseKey u.houseNo)

/-- Order derived from the sort keys; `unitLeR a b` models
`cmp(a, b) <= 0` for the comparator passed to `sort`. -/
def unitLeR (a b : PredefinedUnit) : Prop := unitKey a ≤ unitKey b

instance : DecidableRel unitLeR :=
  fun a b => inferInstanceAs (Decidable (unitKey a ≤ unitKey b))

instance : IsTotal PredefinedUnit unitLeR :=
  ⟨fun a b => le_total (unitKey a) (unitKey b)⟩

instance : IsTrans PredefinedUnit unitLeR :=
  ⟨fun _ _ _ h1 h2 => le_trans h1 h2⟩

/-- Outcome of `handleAddUnitSubmit` (src/index.tsx:567-590). -/
inductive AddUnitOutcome
  | missingField
  | duplicateUnit
  | added (units : List PredefinedUnit)
deriving DecidableEq

/-- `handleAddUnitSubmit` (src/index.tsx:567-590): block is trimmed and
upper-cased, house number trimmed; both must be non-empty; an exact
(block, houseNo) duplicate is rejected; otherwise the new unit is added
and the whole registry re-sorted with the block/houseNo comparator
(JS `sort` is a stable sort; with a consistent comparator its output is
the unique stable sorted permutation, modelled here by a stable
insertion sort). -/
def handleAddUnitSubmit (blockRaw houseNoRaw : String)
    (units : List PredefinedUnit) : AddUnitOutcome :=
  let block := strUpper (strTrim blockRaw)
  let houseNo := strTrim houseNoRaw
  if block = "" ∨ houseNo = "" then AddUnitOutcome.missingField
  else if units.any fun u => u.block == block && u.houseNo == houseNo then
    AddUnitOutcome.duplicateUnit
  else
    AddUnitOutcome.added
      ((units ++ [({ block := block, houseNo := houseNo } : PredefinedUnit)]).insertionSort unitLeR)

/-- The registry after `handleAddUnitSubmit`: unchanged unless added. -/
def unitsAfterAdd (blockRaw houseNoRaw : String)
    (units : List PredefinedUnit) : List PredefinedUnit :=
  match handleAddUnitSubmit blockRaw houseNoRaw units with
  | AddUnitOutcome.added l => l
  | _ => units

/-- `handleUserChatSubmit` (src/index.tsx:780-826) restricted to its
effect on `state.pendingChats`, with the collaborator reply passed as a
value: an empty (trimmed) input is ignored; on a successful reply the
active thread gets the user message and the bot reply appended; on
collaborator failure only the user message reaches the stored thread
(the apology is appended to the ephemeral `chatMessages` only). -/
def handleUserChatSubmit (activeChatId : Nat) (input : String)
    (reply : Except Unit String) (chats : List PendingChat) : List PendingChat :=
  let userInput := strTrim input
  if userInput = "" then chats
  else
    match reply with
    | Except.ok botText =>
      chats.map fun c =>
        if c.id = activeChatId then
          { c with messages := c.messages ++ [⟨Sender.user, userInput⟩, ⟨Sender.bot, botText⟩] }
        else c
    | Except.error _ =>
      chats.map fun c =>
        if c.id = activeChatId then
          { c with messages := c.messages ++ [⟨Sender.user, userInput⟩] }
        else c

/-- User reply as invocable through the UI: `renderChatbot` replaces the
user chat form by a read-only footer when the current user is a Resident
and the active thread has `adminReplied` (src/index.tsx:1622,1635-1650),
so `handleUserChatSubmit` cannot be dispatched on a locked thread. -/
def userReplyOp (r : Role) (activeChatId : Nat) (input : String)
    (reply : Except Unit String) (chats : List PendingChat) : List PendingChat :=
  if decide (r = Role.Resident) &&
      ((chats.find? fun c => c.id == activeChatId).any fun c => c.adminReplied) then
    chats
  else handleUserChatSubmit activeChatId input reply chats

/-- `handleAdminChatSubmit` (src/index.tsx:828-851): appends an
admin-sender message to the viewed thread and latches `adminReplied`. -/
def handleAdminChatSubmit (viewingChatId : Nat) (input : String)
    (chats : List PendingChat) : List PendingChat :=
  let adminInput := strTrim input
  if adminInput = "" then chats
  else
    chats.map fun c =>
      if c.id = viewingChatId then
        { c with messages := c.messages ++ [⟨Sender.admin, adminInput⟩], adminReplied := true }
      else c

/-- `handleDismissChat` (src/index.tsx:868-877): latches `dismissed`. -/
def handleDismissChat (chatId : Nat) (chats : List PendingChat) : List PendingChat :=
  chats.map fun c => if c.id = chatId then { c with dismissed := true } else c

/-- One chat-thread operation of the UI. -/
inductive ChatCall
  | userReply (r : Role) (activeChatId : Nat) (input : String) (reply : Except Unit String)
  | adminReply (viewingChatId : Nat) (input : String)
  | dismiss (chatId : Nat)

/-- Dispatch of one chat operation on the pending-chats collection. -/
def applyChatCall (chats : List PendingChat) : ChatCall → List PendingChat
  | ChatCall.userReply r acid input reply => userReplyOp r acid input reply chats
  | ChatCall.adminReply vcid input => handleAdminChatSubmit vcid input chats
  | ChatCall.dismiss cid => handleDismissChat cid chats

/-- Whether the thread with the given id exists and has `adminReplied`. -/
def adminRepliedAt (cid : Nat) (chats : List PendingChat) : Bool :=
  (chats.find? fun c => c.id == cid).any fun c => c.adminReplied

/-- The chat-widget state touched by `handleStartChatSubmit`. -/
structure ChatStartResult where
  chatMessages : List ChatMessage
  pendingChats : List PendingChat
  activeChatId : Option Nat
deriving DecidableEq

/-- Apology text appended as a bot message when the chat collaborator
fails (src/index.tsx:772, apostrophe elided). -/
def apologyText : String := "Sorry, I am having trouble connecting. Please try again later."

/-- `handleStartChatSubmit` (src/index.tsx:702-778) with the collaborator
reply passed as a value.  Validation failure changes nothing.  On a
successful reply the thread is stored as a new PendingChat holding the
user message and the bot reply.  On collaborator failure the catch block
appends the apology to the ephemeral `chatMessages` only: no PendingChat
is appended to `state.pendingChats`. -/
def handleStartChatSubmit (userId : Option Nat) (name block houseNo rawQuery : String)
    (newChatId : Nat) (reply : Except Unit String)
    (msgs0 : List ChatMessage) (active0 : Option Nat)
    (chats : List PendingChat) : ChatStartResult :=
  let initialQuery := strTrim rawQuery
  if name = "" ∨ block = "" ∨ houseNo = "" ∨ initialQuery = "" then
    ⟨msgs0, chats, active0⟩
  else
    let firstUserMessage : ChatMessage := ⟨Sender.user, initialQuery⟩
    match reply with
    | Except.ok botText =>
      let finalMessages := [firstUserMessage, ⟨Sender.bot, botText⟩]
      ⟨finalMessages,
        chats ++ [{ id := newChatId, userId := userId, userName := name,
                    unit := block ++ "-" ++ houseNo, initialQuery := initialQuery,
                    messages := finalMessages, dismissed := false, adminReplied := false }],
        some newChatId⟩
    | Except.error _ =>
      ⟨[firstUserMessage, ⟨Sender.bot, apologyText⟩], chats, some newChatId⟩

/-- Seed visitor ALICE JOHNSON of `mockVisitors` (src/index.tsx:84). -/
def aliceV : Visitor :=
  { id := 1, name := "ALICE JOHNSON", contact := "555-1234", purpose := "DELIVERY",
    resident := "A-101", block := "A", houseNo := "101", vehicle := "XYZ 123",
    carBrand := "TOYOTA", photo := none, status := VStatus.Approved,
    checkInTime := none, checkOutTime := none }

/-- Seed visitor BOB WILLIAMS of `mockVisitors` (src/index.tsx:85), with
his relative check-in instant modelled as 1. -/
def bobV : Visitor :=
  { id := 2, name := "BOB WILLIAMS", contact := "555-5678", purpose := "MAINTENANCE",
    resident := "B-203", block := "B", houseNo := "203", vehicle := "", carBrand := "",
    photo := none, status := VStatus.CheckedIn, checkInTime := some 1,
    checkOutTime := none }

/-- Seed visitor CHARLIE BROWN of `mockVisitors` (src/index.tsx:86). -/
def charlieV : Visitor :=
  { id := 3, name := "CHARLIE BROWN", contact := "555-8765", purpose := "PERSONAL VISIT",
    resident := "C-305", block := "C", houseNo := "305", vehicle := "", carBrand := "",
    photo := none, status := VStatus.Pending, checkInTime := none, checkOutTime := none }

/-- Seed user store `mockUsers` (src/index.tsx:69-75). -/
def mockUsers : List User :=
  [ { id := 1, username := "admin", password := "password", role := Role.Admin, unitNo := none },
    { id := 2, username := "security", password := "password", role := Role.Security, unitNo := none },
    { id := 3, username := "officer", password := "password", role := Role.Officer, unitNo := none },
    { id := 4, username := "resident101", password := "password", role := Role.Resident, unitNo := some "A-101" },
    { id := 5, username := "resident203", password := "password", role := Role.Resident, unitNo := some "B-203" } ]

/-- Whether `renderVisitorsGrid` renders any button dispatching this
call for the calling role (the status part of the guard aside). -/
def allowedCall (c : Call) : Bool :=
  match c.op with
  | Op.register _ _ => canRegister c.role
  | Op.approve _ => canApprove c.role
  | Op.reject _ => canApprove c.role
  | Op.checkIn _ => canCheckIn c.role
  | Op.checkOut _ => canCheckIn c.role
  | Op.edit _ _ => canEdit c.role

/-- The time of the last call, `t0` for the empty sequence. -/
def lastTime : Nat → List Call → Nat
  | t0, [] => t0
  | _, c :: cs => lastTime c.time cs

/-- A thread already answered by staff (`adminReplied` latched), as
produced by `handleAdminChatSubmit` on a fresh thread. -/
def lockedSeedChat : PendingChat :=
  { id := 5, userId := some 4, userName := "resident101", unit := "A-101",
    initialQuery := "Is my guest here?",
    messages := [⟨Sender.user, "Is my guest here?"⟩, ⟨Sender.admin, "Yes."⟩],
    dismissed := false, adminReplied := true }

/-- The seed user store extended by a second Admin (id 6), as in the
specification scenario for the last-Admin protections. -/
def mockUsersPlusAdmin : List User :=
  mockUsers ++
    [ { id := 6, username := "admin2", password := "password", role := Role.Admin,
        unitNo := none } ]

/-- The unit record built by `handleAddUnitSubmit` from the raw form
fields. -/
def newUnitOf (blockRaw houseNoRaw : String) : PredefinedUnit :=
  { block := strUpper (strTrim blockRaw), houseNo := strTrim houseNoRaw }

/-! ## Helper lemmas -/

/-- `find?` commutes with a map that does not change the predicate. -/
theorem find?_map_of_pred_inv {α : Type} {f : α → α} {p : α → Bool}
    (hp : ∀ a, p (f a) = p a) (l : List α) :
    (l.map f).find? p = (l.find? p).map f := by
  induction l with
  | nil => rfl
  | cons a l ih =>
    simp only [List.map_cons]
    cases h : p a with
    | true =>
      rw [List.find?_cons_of_pos _ ((hp a).trans h), List.find?_cons_of_pos _ h]
      rfl
    | false =>
      rw [List.find?_cons_of_neg _ (by simp [hp a, h]), List.find?_cons_of_neg _ (by simp [h])]
      exact ih

/-- An update targeting an id that no visitor carries is the identity. -/
theorem map_upd_eq_self {g : Visitor → Visitor} {j : Nat} {vs : List Visitor}
    (h : ∀ v ∈ vs, v.id ≠ j) :
    (vs.map fun v => if v.id = j then g v else v) = vs := by
  induction vs with
  | nil => rfl
  | cons a l ih =>
    simp only [List.map_cons]
    rw [if_neg (h a (List.mem_cons_self a l))]
    rw [ih fun v hv => h v (List.mem_cons_of_mem a hv)]

/-- When no visitor in sight is both the target id and in status `s`, the
corresponding render guard is false. -/
theorem any_status_false_of_statusOf_ne {i : Nat} {s : VStatus} {vs : List Visitor}
    (hU : idsNodup Visitor.id vs) (hs : statusOf i vs ≠ some s) :
    (vs.any fun v => v.id == i && decide (v.status = s)) = false := by
  by_contra hx
  rw [Bool.not_eq_false, List.any_eq_true] at hx
  obtain ⟨a, ha, hpa⟩ := hx
  rw [Bool.and_eq_true, beq_iff_eq, decide_eq_true_iff] at hpa
  obtain ⟨haid, hast⟩ := hpa
  have hsome : (vs.find? fun v => v.id == i).isSome :=
    List.find?_isSome.mpr ⟨a, ha, by simp [haid]⟩
  obtain ⟨b, hb⟩ := Option.isSome_iff_exists.mp hsome
  have hbid : b.id = i := by
    have := List.find?_some hb
    simpa using this
  have hbmem : b ∈ vs := List.mem_of_find?_eq_some hb
  have hab : a = b :=
    List.inj_on_of_nodup_map hU ha hbmem (by rw [haid, hbid])
  apply hs
  rw [statusOf, hb]
  simp [← hab, hast]

/-- An id-preserving update at id `j` does not change the status looked
up at a different id `i`. -/
theorem statusOf_map_upd_ne {g : Visitor → Visitor} (hg : ∀ v, (g v).id = v.id)
    {j i : Nat} (hne : i ≠ j) (vs : List Visitor) :
    statusOf i (vs.map fun v => if v.id = j then g v else v) = statusOf i vs := by
  have hp : ∀ v : Visitor, ((if v.id = j then g v else v).id == i) = (v.id == i) := by
    intro v
    by_cases hv : v.id = j
    · rw [if_pos hv, hg v]
    · rw [if_neg hv]
  rw [statusOf, statusOf, find?_map_of_pred_inv hp]
  cases hfind : vs.find? fun v => v.id == i with
  | none => rfl
  | some a =>
    have haid : a.id = i := by simpa using List.find?_some hfind
    have : ¬(a.id = j) := fun h => hne (haid.symm.trans h)
    simp [if_neg this]

/-- An id- and status-preserving update does not change any status
lookup. -/
theorem statusOf_map_upd_pres {g : Visitor → Visitor} (hg : ∀ v, (g v).id = v.id)
    (hs : ∀ v, (g v).status = v.status) (j i : Nat) (vs : List Visitor) :
    statusOf i (vs.map fun v => if v.id = j then g v else v) = statusOf i vs := by
  have hp : ∀ v : Visitor, ((if v.id = j then g v else v).id == i) = (v.id == i) := by
    intro v
    by_cases hv : v.id = j
    · rw [if_pos hv, hg v]
    · rw [if_neg hv]
  rw [statusOf, statusOf, find?_map_of_pred_inv hp]
  cases hfind : vs.find? fun v => v.id == i with
  | none => rfl
  | some a =>
    by_cases hv : a.id = j
    · simp [if_pos hv, hs a]
    · simp [if_neg hv]

/-- An id-preserving update keeps the id multiset, hence id uniqueness. -/
theorem idsNodup_map_upd {g : Visitor → Visitor} (hg : ∀ v, (g v).id = v.id)
    (j : Nat) (vs : List Visitor) :
    idsNodup Visitor.id (vs.map fun v => if v.id = j then g v else v) ↔
      idsNodup Visitor.id vs := by
  unfold idsNodup
  rw [List.map_map]
  have : ∀ v : Visitor, (Visitor.id ∘ fun v => if v.id = j then g v else v) v = v.id := by
    intro v
    by_cases hv : v.id = j
    · simp [if_pos hv, hg v]
    · simp [if_neg hv]
  rw [List.map_congr_left fun v _ => this v]

/-! ## C10: lifecycle calls on a missing id -/

/-- C10: for an id matching no existing visitor, approve, reject,
check-in and check-out (both the raw handlers and the operations as
invocable through the UI, for every role) leave the visitors collection
exactly unchanged. -/
theorem lifecycle_on_missing_id_is_noop (now i : Nat) (vs : List Visitor)
    (h : ∀ v ∈ vs, v.id ≠ i) :
    handleApprove i vs = vs ∧ handleReject i vs = vs ∧
    handleCheckIn now i vs = vs ∧ handleCheckOut now i vs = vs ∧
    ∀ r : Role, approveOp r i vs = vs ∧ rejectOp r i vs = vs ∧
      checkInOp r now i vs = vs ∧ checkOutOp r now i vs = vs := by
  have hmap : ∀ g : Visitor → Visitor,
      (vs.map fun v => if v.id = i then g v else v) = vs :=
    fun g => map_upd_eq_self h
  refine ⟨hmap _, hmap _, hmap _, hmap _, fun r => ?_⟩
  have hany : ∀ s : VStatus,
      (vs.any fun v => v.id == i && decide (v.status = s)) = false := by
    intro s
    rw [List.any_eq_false]
    intro v hv
    simp [h v hv]
  refine ⟨?_, ?_, ?_, ?_⟩ <;>
    simp [approveOp, rejectOp, checkInOp, checkOutOp, hany, hmap,
      handleApprove, handleReject, handleCheckIn, handleCheckOut]

/-- Witness for C10 at a concrete input: no visitor has id 42. -/
theorem lifecycle_on_missing_id_is_noop_witness :
    handleApprove 42 [aliceV, charlieV] = [aliceV, charlieV] ∧
    handleReject 42 [aliceV, charlieV] = [aliceV, charlieV] ∧
    handleCheckIn 7 42 [aliceV, charlieV] = [aliceV, charlieV] ∧
    handleCheckOut 7 42 [aliceV, charlieV] = [aliceV, charlieV] ∧
    ∀ r : Role, approveOp r 42 [aliceV, charlieV] = [aliceV, charlieV] ∧
      rejectOp r 42 [aliceV, charlieV] = [aliceV, charlieV] ∧
      checkInOp r 7 42 [aliceV, charlieV] = [aliceV, charlieV] ∧
      checkOutOp r 7 42 [aliceV, charlieV] = [aliceV, charlieV] :=
  lifecycle_on_missing_id_is_noop 7 42 [aliceV, charlieV] (by decide)

/-! ## C1: approve and reject on a visitor not in Pending -/

/-- C1: when the visitor with the given id is not Pending, the approve
and reject operations (invocable only through buttons that
`renderVisitorsGrid` and `renderApprovalModal` render solely for Pending
visitors) leave the visitor collection, and hence that visitor's whole
record, unchanged, for every acting role. -/
theorem approve_reject_on_non_pending_is_noop (r : Role) (i : Nat)
    (vs : List Visitor) (s : VStatus) (hU : idsNodup Visitor.id vs)
    (hs : statusOf i vs = some s) (hne : s ≠ VStatus.Pending) :
    approveOp r i vs = vs ∧ rejectOp r i vs = vs := by
  have hns : statusOf i vs ≠ some VStatus.Pending := by
    rw [hs]
    exact fun hx => hne (Option.some.inj hx)
  have hany := any_status_false_of_statusOf_ne hU hns
  constructor <;> simp [approveOp, rejectOp, hany]

/-- Witness for C1: approving or rejecting the Approved seed visitor
ALICE (id 1) changes nothing. -/
theorem approve_reject_on_non_pending_is_noop_witness :
    idsNodup Visitor.id [aliceV, charlieV] ∧
    statusOf 1 [aliceV, charlieV] = some VStatus.Approved ∧
    approveOp Role.Admin 1 [aliceV, charlieV] = [aliceV, charlieV] ∧
    rejectOp Role.Admin 1 [aliceV, charlieV] = [aliceV, charlieV] := by
  refine ⟨by decide, by decide, ?_⟩
  have h := approve_reject_on_non_pending_is_noop Role.Admin 1 [aliceV, charlieV]
    VStatus.Approved (by decide) (by decide) (by decide)
  exact h

/-- A successful status lookup names a member with that id and status. -/
theorem statusOf_find {i : Nat} {vs : List Visitor} {s : VStatus}
    (hs : statusOf i vs = some s) :
    ∃ b ∈ vs, b.id = i ∧ b.status = s := by
  rw [statusOf] at hs
  cases hfind : vs.find? fun v => v.id == i with
  | none => rw [hfind] at hs; exact absurd hs (by simp)
  | some b =>
    rw [hfind] at hs
    simp at hs
    exact ⟨b, List.mem_of_find?_eq_some hfind, by simpa using List.find?_some hfind, hs⟩

/-- When the status guard of a gated transition fires, the updated id
carries the guarding status, so a visitor known to hold a different
status is not the target: the lookup at its id is unchanged. -/
theorem statusOf_guarded_upd {vs : List Visitor} {i j : Nat} {s s' : VStatus}
    {g : Visitor → Visitor} (hg : ∀ v, (g v).id = v.id)
    (hU : idsNodup Visitor.id vs) (hs : statusOf i vs = some s) (hne : s ≠ s')
    (happ : (vs.any fun v => v.id == j && decide (v.status = s')) = true) :
    statusOf i (vs.map fun v => if v.id = j then g v else v) = some s := by
  rw [List.any_eq_true] at happ
  obtain ⟨u, hu, hpu⟩ := happ
  rw [Bool.and_eq_true, beq_iff_eq, decide_eq_true_iff] at hpu
  obtain ⟨huid, hust⟩ := hpu
  by_cases hij : i = j
  · exfalso
    obtain ⟨b, hbmem, hbid, hbst⟩ := statusOf_find hs
    have hbu : b = u := List.inj_on_of_nodup_map hU hbmem hu (by rw [hbid, huid, hij])
    exact hne (hbst.symm.trans (by rw [hbu, hust]))
  · rw [statusOf_map_upd_ne hg hij vs]
    exact hs

/-- One gated call preserves a terminal (Rejected or Checked-out) status
and id uniqueness. -/
theorem terminal_preserved_call (c : Call) {vs : List Visitor} {i : Nat} {s : VStatus}
    (hU : idsNodup Visitor.id vs) (hF : callFresh vs c = true)
    (hs : statusOf i vs = some s)
    (hterm : s = VStatus.Rejected ∨ s = VStatus.CheckedOut) :
    statusOf i (applyCall vs c) = some s ∧ idsNodup Visitor.id (applyCall vs c) := by
  obtain ⟨r, t, op⟩ := c
  have hnp : s ≠ VStatus.Pending := by
    rcases hterm with h | h <;> rw [h] <;> intro hx <;> cases hx
  have hna : s ≠ VStatus.Approved := by
    rcases hterm with h | h <;> rw [h] <;> intro hx <;> cases hx
  have hnc : s ≠ VStatus.CheckedIn := by
    rcases hterm with h | h <;> rw [h] <;> intro hx <;> cases hx
  cases op with
  | register j f =>
    simp only [applyCall, registerOp]
    by_cases hr : canRegister r = true
    · rw [if_pos hr]
      have hfresh : ∀ v ∈ vs, v.id ≠ j := by
        simp only [callFresh, List.all_eq_true] at hF
        intro v hv
        simpa using hF v hv
      obtain ⟨b, hbmem, hbid, hbst⟩ := statusOf_find hs
      have hij : i ≠ j := fun hx => hfresh b hbmem (hbid.trans hx)
      have hmkid : (mkVisitor j f).id = j := rfl
      constructor
      · rw [statusOf, List.find?_cons_of_neg]
        · exact hs
        · simp [hmkid]
          exact fun hx => hij hx.symm
      · rw [idsNodup, List.map_cons]
        refine List.nodup_cons.mpr ⟨?_, hU⟩
        simp only [List.mem_map]
        rintro ⟨v, hv, hvid⟩
        exact hfresh v hv (by rw [hvid, hmkid])
    · rw [if_neg hr]
      exact ⟨hs, hU⟩
  | approve j =>
    simp only [applyCall, approveOp]
    by_cases hb : (canApprove r &&
        vs.any fun v => v.id == j && decide (v.status = VStatus.Pending)) = true
    · rw [if_pos hb, handleApprove]
      rw [Bool.and_eq_true] at hb
      refine ⟨?_, ?_⟩
      · exact statusOf_guarded_upd (fun v => rfl) hU hs hnp hb.2
      · exact (idsNodup_map_upd (g := fun v => { v with status := VStatus.Approved })
          (fun v => rfl) j vs).mpr hU
    · rw [if_neg hb]
      exact ⟨hs, hU⟩
  | reject j =>
    simp only [applyCall, rejectOp]
    by_cases hb : (canApprove r &&
        vs.any fun v => v.id == j && decide (v.status = VStatus.Pending)) = true
    · rw [if_pos hb, handleReject]
      rw [Bool.and_eq_true] at hb
      refine ⟨?_, ?_⟩
      · exact statusOf_guarded_upd (fun v => rfl) hU hs hnp hb.2
      · exact (idsNodup_map_upd (g := fun v => { v with status := VStatus.Rejected })
          (fun v => rfl) j vs).mpr hU
    · rw [if_neg hb]
      exact ⟨hs, hU⟩
  | checkIn j =>
    simp only [applyCall, checkInOp]
    by_cases hb : (canCheckIn r &&
        vs.any fun v => v.id == j && decide (v.status = VStatus.Approved)) = true
    · rw [if_pos hb, handleCheckIn]
      rw [Bool.and_eq_true] at hb
      refine ⟨?_, ?_⟩
      · exact statusOf_guarded_upd (fun v => rfl) hU hs hna hb.2
      · exact (idsNodup_map_upd
          (g := fun v => { v with status := VStatus.CheckedIn, checkInTime := some t })
          (fun v => rfl) j vs).mpr hU
    · rw [if_neg hb]
      exact ⟨hs, hU⟩
  | checkOut j =>
    simp only [applyCall, checkOutOp]
    by_cases hb : (canCheckIn r &&
        vs.any fun v => v.id == j && decide (v.status = VStatus.CheckedIn)) = true
    · rw [if_pos hb, handleCheckOut]
      rw [Bool.and_eq_true] at hb
      refine ⟨?_, ?_⟩
      · exact statusOf_guarded_upd (fun v => rfl) hU hs hnc hb.2
      · exact (idsNodup_map_upd
          (g := fun v => { v with status := VStatus.CheckedOut, checkOutTime := some t })
          (fun v => rfl) j vs).mpr hU
    · rw [if_neg hb]
      exact ⟨hs, hU⟩
  | edit j f =>
    simp only [applyCall, editOp]
    by_cases he : canEdit r = true
    · rw [if_pos he]
      refine ⟨?_, ?_⟩
      · exact (statusOf_map_upd_pres (g := applyEdit f)
          (fun v => rfl) (fun v => rfl) j i vs).trans hs
      · exact (idsNodup_map_upd (g := applyEdit f) (fun v => rfl) j vs).mpr hU
    · rw [if_neg he]
      exact ⟨hs, hU⟩

/-! ## C2: no transition out of Rejected or Checked-out -/

/-- C2: across every sequence of lifecycle operations (register with
fresh time-based ids, approve, reject, check-in, check-out, edit) and
every acting role, a visitor whose status is Rejected or Checked-out
still has exactly that status afterwards. -/
theorem terminal_status_never_changes (vs : List Visitor) (calls : List Call)
    (i : Nat) (s : VStatus) (hU : idsNodup Visitor.id vs)
    (hF : seqFresh vs calls = true) (hs : statusOf i vs = some s)
    (hterm : s = VStatus.Rejected ∨ s = VStatus.CheckedOut) :
    statusOf i (applySeq vs calls) = some s := by
  induction calls generalizing vs with
  | nil => exact hs
  | cons c cs ih =>
    rw [seqFresh, Bool.and_eq_true] at hF
    obtain ⟨hstat, hnodup⟩ := terminal_preserved_call c hU hF.1 hs hterm
    exact ih (applyCall vs c) hnodup hF.2 hstat

/-- Witness for C2: a Rejected visitor (id 9) stays Rejected across an
approve attempt, a check-in attempt, an edit and a fresh registration. -/
theorem terminal_status_never_changes_witness :
    statusOf 9
      (applySeq
        [{ aliceV with id := 9, status := VStatus.Rejected }]
        [⟨Role.Admin, 3, Op.approve 9⟩,
         ⟨Role.Admin, 4, Op.checkIn 9⟩,
         ⟨Role.Officer, 5, Op.edit 9
           ⟨"NEW NAME", "555-0000", "VISIT", "A", "101", "", "", none⟩⟩,
         ⟨Role.Officer, 6, Op.register 10
           ⟨"OTHER", "555-1111", "VISIT", "B", "201", "", "", none⟩⟩]) =
      some VStatus.Rejected :=
  terminal_status_never_changes _ _ 9 VStatus.Rejected (by decide) (by decide)
    (by decide) (Or.inl rfl)

/-! ## C3: role-gated operations by a disallowed role -/

/-- A call whose role fails its render guard dispatches nothing. -/
theorem applyCall_disallowed (c : Call) (h : allowedCall c = false)
    (vs : List Visitor) : applyCall vs c = vs := by
  obtain ⟨r, t, op⟩ := c
  cases op <;>
    simp_all [allowedCall, applyCall, registerOp, approveOp, rejectOp,
      checkInOp, checkOutOp, editOp]

/-- C3: the allowed sets are exactly Admin/Officer for approve, reject
and edit and Admin/Security for check-in/check-out; any single call or
any sequence of calls whose role falls outside its allowed set (in
particular any call by a Resident, who can only read) leaves the
visitors collection exactly unchanged. -/
theorem role_gated_ops_never_mutate (r : Role) (vs : List Visitor) :
    (canApprove r = false ↔ ¬(r = Role.Admin ∨ r = Role.Officer)) ∧
    (canCheckIn r = false ↔ ¬(r = Role.Admin ∨ r = Role.Security)) ∧
    (canEdit r = false ↔ ¬(r = Role.Admin ∨ r = Role.Officer)) ∧
    (canRegister r = false ↔ ¬(r = Role.Admin ∨ r = Role.Officer ∨ r = Role.Security)) ∧
    (∀ c : Call, allowedCall c = false → applyCall vs c = vs) ∧
    (∀ calls : List Call, (∀ c ∈ calls, allowedCall c = false) → applySeq vs calls = vs) ∧
    (∀ c : Call, c.role = Role.Resident → applyCall vs c = vs) ∧
    (∀ calls : List Call, (∀ c ∈ calls, c.role = Role.Resident) → applySeq vs calls = vs) := by
  have hres : ∀ c : Call, c.role = Role.Resident → allowedCall c = false := by
    rintro ⟨cr, ct, cop⟩ hr
    simp only at hr
    subst hr
    cases cop <;> rfl
  have hseq : ∀ (calls : List Call) (ws : List Visitor),
      (∀ c ∈ calls, allowedCall c = false) → applySeq ws calls = ws := by
    intro calls
    induction calls with
    | nil => intro ws _; rfl
    | cons c cs ih =>
      intro ws h
      rw [applySeq, applyCall_disallowed c (h c (List.mem_cons_self c cs)) ws]
      exact ih ws fun x hx => h x (List.mem_cons_of_mem c hx)
  refine ⟨by cases r <;> decide, by cases r <;> decide, by cases r <;> decide,
    by cases r <;> decide, fun c h => applyCall_disallowed c h vs,
    fun calls h => hseq calls vs h, fun c h => applyCall_disallowed c (hres c h) vs,
    fun calls h => hseq calls vs fun c hc => hres c (h c hc)⟩

/-- Witness for C3: a Resident approve attempt and a Security approve
attempt on the Pending seed visitor CHARLIE change nothing. -/
theorem role_gated_ops_never_mutate_witness :
    applyCall [charlieV] ⟨Role.Resident, 3, Op.approve 3⟩ = [charlieV] ∧
    applyCall [charlieV] ⟨Role.Security, 3, Op.approve 3⟩ = [charlieV] ∧
    applySeq [charlieV]
      [⟨Role.Resident, 3, Op.approve 3⟩, ⟨Role.Resident, 4, Op.checkIn 3⟩] = [charlieV] :=
  ⟨(role_gated_ops_never_mutate Role.Resident [charlieV]).2.2.2.2.2.2.1
      ⟨Role.Resident, 3, Op.approve 3⟩ rfl,
    (role_gated_ops_never_mutate Role.Security [charlieV]).2.2.2.2.1
      ⟨Role.Security, 3, Op.approve 3⟩ (by decide),
    (role_gated_ops_never_mutate Role.Resident [charlieV]).2.2.2.2.2.2.2
      [⟨Role.Resident, 3, Op.approve 3⟩, ⟨Role.Resident, 4, Op.checkIn 3⟩]
      (by decide)⟩

/-! ## C4: check-in/check-out validity and timestamp stamping -/

/-- One visitor's timestamp sanity is monotone in the current instant. -/
theorem visitorTimeOK_mono {t1 t2 : Nat} (h12 : t1 ≤ t2) {v : Visitor}
    (h : visitorTimeOK t1 v = true) : visitorTimeOK t2 v = true := by
  rw [visitorTimeOK] at h ⊢
  rw [Bool.and_eq_true, Bool.and_eq_true, Bool.and_eq_true] at h ⊢
  refine ⟨⟨⟨?_, ?_⟩, h.1.2⟩, h.2⟩
  · cases hin : v.checkInTime with
    | none => rfl
    | some a =>
      have h1 := h.1.1.1
      rw [hin] at h1
      rw [optLeB] at h1 ⊢
      simp only [decide_eq_true_iff] at h1 ⊢
      omega
  · cases hout : v.checkOutTime with
    | none => rfl
    | some a =>
      have h2 := h.1.1.2
      rw [hout] at h2
      rw [optLeB] at h2 ⊢
      simp only [decide_eq_true_iff] at h2 ⊢
      omega

/-- Collection timestamp sanity is monotone in the current instant. -/
theorem timeInv_mono {t1 t2 : Nat} (h12 : t1 ≤ t2) {vs : List Visitor}
    (h : timeInv t1 vs = true) : timeInv t2 vs = true := by
  rw [timeInv, List.all_eq_true] at h ⊢
  exact fun v hv => visitorTimeOK_mono h12 (h v hv)

/-- With unique ids, a fired status guard pins the status of every
member carrying the target id. -/
theorem status_at_of_guard {vs : List Visitor} {j : Nat} {s' : VStatus}
    (hU : idsNodup Visitor.id vs)
    (happ : (vs.any fun v => v.id == j && decide (v.status = s')) = true) :
    ∀ v ∈ vs, v.id = j → v.status = s' := by
  rw [List.any_eq_true] at happ
  obtain ⟨u, hu, hpu⟩ := happ
  rw [Bool.and_eq_true, beq_iff_eq, decide_eq_true_iff] at hpu
  intro v hv hvid
  have : v = u := List.inj_on_of_nodup_map hU hv hu (by rw [hvid, hpu.1])
  rw [this, hpu.2]

/-- A gated call preserves id uniqueness. -/
theorem idsNodup_applyCall (c : Call) {vs : List Visitor}
    (hU : idsNodup Visitor.id vs) (hF : callFresh vs c = true) :
    idsNodup Visitor.id (applyCall vs c) := by
  obtain ⟨r, t, op⟩ := c
  cases op with
  | register j f =>
    simp only [applyCall, registerOp]
    by_cases hr : canRegister r = true
    · rw [if_pos hr]
      have hfresh : ∀ v ∈ vs, v.id ≠ j := by
        simp only [callFresh, List.all_eq_true] at hF
        intro v hv
        simpa using hF v hv
      rw [idsNodup, List.map_cons]
      refine List.nodup_cons.mpr ⟨?_, hU⟩
      simp only [List.mem_map]
      rintro ⟨v, hv, hvid⟩
      exact hfresh v hv hvid
    · rw [if_neg hr]
      exact hU
  | approve j =>
    simp only [applyCall, approveOp]
    split
    · exact (idsNodup_map_upd (g := fun v => { v with status := VStatus.Approved })
        (fun v => rfl) j vs).mpr hU
    · exact hU
  | reject j =>
    simp only [applyCall, rejectOp]
    split
    · exact (idsNodup_map_upd (g := fun v => { v with status := VStatus.Rejected })
        (fun v => rfl) j vs).mpr hU
    · exact hU
  | checkIn j =>
    simp only [applyCall, checkInOp]
    split
    · exact (idsNodup_map_upd
        (g := fun v => { v with status := VStatus.CheckedIn, checkInTime := some t })
        (fun v => rfl) j vs).mpr hU
    · exact hU
  | checkOut j =>
    simp only [applyCall, checkOutOp]
    split
    · exact (idsNodup_map_upd
        (g := fun v => { v with status := VStatus.CheckedOut, checkOutTime := some t })
        (fun v => rfl) j vs).mpr hU
    · exact hU
  | edit j f =>
    simp only [applyCall, editOp]
    split
    · exact (idsNodup_map_upd (g := applyEdit f) (fun v => rfl) j vs).mpr hU
    · exact hU

/-- One gated call at instant `c.time ≥ now` preserves timestamp sanity:
check-in targets an Approved visitor (which carries no check-out stamp)
and stamps `checkInTime := c.time`; check-out targets a Checked-in
visitor and stamps `checkOutTime := c.time ≥` its check-in stamp. -/
theorem timeInv_applyCall (c : Call) {vs : List Visitor} {now : Nat}
    (hU : idsNodup Visitor.id vs) (hInv : timeInv now vs = true)
    (hle : now ≤ c.time) : timeInv c.time (applyCall vs c) = true := by
  obtain ⟨r, t, op⟩ := c
  simp only at hle
  have hmem : ∀ v ∈ vs, visitorTimeOK now v = true := by
    rw [timeInv, List.all_eq_true] at hInv
    exact hInv
  cases op with
  | register j f =>
    simp only [applyCall, registerOp]
    split
    · rw [timeInv, List.all_eq_true]
      intro v hv
      rcases List.mem_cons.mp hv with h | h
      · subst h
        rfl
      · exact visitorTimeOK_mono hle (hmem v h)
    · exact timeInv_mono hle hInv
  | approve j =>
    simp only [applyCall, approveOp]
    by_cases hb : (canApprove r &&
        vs.any fun v => v.id == j && decide (v.status = VStatus.Pending)) = true
    · rw [if_pos hb]
      rw [Bool.and_eq_true] at hb
      have hstat := status_at_of_guard hU hb.2
      rw [handleApprove, timeInv, List.all_eq_true]
      intro w hw
      rw [List.mem_map] at hw
      obtain ⟨v, hv, hweq⟩ := hw
      have hm := visitorTimeOK_mono hle (hmem v hv)
      subst hweq
      by_cases hid : v.id = j
      · rw [if_pos hid]
        have hp : v.status = VStatus.Pending := hstat v hv hid
        rw [visitorTimeOK] at hm ⊢
        rw [Bool.and_eq_true, Bool.and_eq_true, Bool.and_eq_true] at hm ⊢
        refine ⟨⟨⟨hm.1.1.1, hm.1.1.2⟩, ?_⟩, hm.2⟩
        have h3 := hm.1.2
        rw [hp] at h3
        simp only [decide_eq_true_iff] at h3 ⊢
        simp at h3 ⊢
        exact h3
      · rw [if_neg hid]
        exact hm
    · rw [if_neg hb]
      exact timeInv_mono hle hInv
  | reject j =>
    simp only [applyCall, rejectOp]
    by_cases hb : (canApprove r &&
        vs.any fun v => v.id == j && decide (v.status = VStatus.Pending)) = true
    · rw [if_pos hb]
      rw [handleReject, timeInv, List.all_eq_true]
      intro w hw
      rw [List.mem_map] at hw
      obtain ⟨v, hv, hweq⟩ := hw
      have hm := visitorTimeOK_mono hle (hmem v hv)
      subst hweq
      by_cases hid : v.id = j
      · rw [if_pos hid]
        rw [visitorTimeOK] at hm ⊢
        rw [Bool.and_eq_true, Bool.and_eq_true, Bool.and_eq_true] at hm ⊢
        refine ⟨⟨⟨hm.1.1.1, hm.1.1.2⟩, ?_⟩, hm.2⟩
        simp
      · rw [if_neg hid]
        exact hm
    · rw [if_neg hb]
      exact timeInv_mono hle hInv
  | checkIn j =>
    simp only [applyCall, checkInOp]
    by_cases hb : (canCheckIn r &&
        vs.any fun v => v.id == j && decide (v.status = VStatus.Approved)) = true
    · rw [if_pos hb]
      rw [Bool.and_eq_true] at hb
      have hstat := status_at_of_guard hU hb.2
      rw [handleCheckIn, timeInv, List.all_eq_true]
      intro w hw
      rw [List.mem_map] at hw
      obtain ⟨v, hv, hweq⟩ := hw
      have hm := visitorTimeOK_mono hle (hmem v hv)
      subst hweq
      by_cases hid : v.id = j
      · rw [if_pos hid]
        have hp : v.status = VStatus.Approved := hstat v hv hid
        rw [visitorTimeOK] at hm ⊢
        rw [Bool.and_eq_true, Bool.and_eq_true, Bool.and_eq_true] at hm ⊢
        have h3 := hm.1.2
        rw [hp] at h3
        simp at h3
        have hnone : v.checkOutTime = none := h3
        refine ⟨⟨⟨?_, ?_⟩, ?_⟩, ?_⟩
        · rw [optLeB]
          simp
        · exact hm.1.1.2
        · simp
        · rw [hnone]
      · rw [if_neg hid]
        exact hm
    · rw [if_neg hb]
      exact timeInv_mono hle hInv
  | checkOut j =>
    simp only [applyCall, checkOutOp]
    by_cases hb : (canCheckIn r &&
        vs.any fun v => v.id == j && decide (v.status = VStatus.CheckedIn)) = true
    · rw [if_pos hb]
      rw [handleCheckOut, timeInv, List.all_eq_true]
      intro w hw
      rw [List.mem_map] at hw
      obtain ⟨v, hv, hweq⟩ := hw
      have hm := visitorTimeOK_mono hle (hmem v hv)
      subst hweq
      by_cases hid : v.id = j
      · rw [if_pos hid]
        rw [visitorTimeOK] at hm ⊢
        rw [Bool.and_eq_true, Bool.and_eq_true, Bool.and_eq_true] at hm ⊢
        refine ⟨⟨⟨hm.1.1.1, ?_⟩, ?_⟩, ?_⟩
        · rw [optLeB]
          simp
        · simp
        · have h1 := hm.1.1.1
          cases hin : v.checkInTime with
          | none => simp
          | some a =>
            rw [hin, optLeB] at h1
            simp only [decide_eq_true_iff] at h1
            simp only [decide_eq_true_iff]
            exact h1
      · rw [if_neg hid]
        exact hm
    · rw [if_neg hb]
      exact timeInv_mono hle hInv
  | edit j f =>
    simp only [applyCall, editOp]
    split
    · rw [timeInv, List.all_eq_true]
      intro w hw
      rw [List.mem_map] at hw
      obtain ⟨v, hv, hweq⟩ := hw
      have hm := visitorTimeOK_mono hle (hmem v hv)
      subst hweq
      by_cases hid : v.id = j
      · rw [if_pos hid]
        have : visitorTimeOK t (applyEdit f v) = visitorTimeOK t v := rfl
        rw [this]
        exact hm
      · rw [if_neg hid]
        exact hm
    · exact timeInv_mono hle hInv

/-- Timestamp sanity propagates along any monotone call sequence. -/
theorem timeInv_applySeq (calls : List Call) : ∀ (vs : List Visitor) (t0 : Nat),
    idsNodup Visitor.id vs → seqFresh vs calls = true → timeInv t0 vs = true →
    callsMono t0 calls = true →
    timeInv (lastTime t0 calls) (applySeq vs calls) = true := by
  induction calls with
  | nil =>
    intro vs t0 _ _ hInv _
    exact hInv
  | cons c cs ih =>
    intro vs t0 hU hF hInv hM
    rw [seqFresh, Bool.and_eq_true] at hF
    rw [callsMono, Bool.and_eq_true, decide_eq_true_iff] at hM
    rw [applySeq, lastTime]
    exact ih (applyCall vs c) c.time (idsNodup_applyCall c hU hF.1) hF.2
      (timeInv_applyCall c hU hInv hM.1) hM.2

/-- Timestamp sanity includes the stamp ordering condition. -/
theorem stampsOrdered_of_timeInv {t : Nat} {vs : List Visitor}
    (h : timeInv t vs = true) : stampsOrdered vs = true := by
  rw [timeInv, List.all_eq_true] at h
  rw [stampsOrdered, List.all_eq_true]
  intro v hv
  have hvOK := h v hv
  rw [visitorTimeOK, Bool.and_eq_true, Bool.and_eq_true, Bool.and_eq_true] at hvOK
  exact hvOK.2

/-- C4: check-in is a no-op unless the target is Approved and check-out
unless the target is Checked-in; a valid check-in stamps `checkInTime`
and a valid check-out stamps `checkOutTime` with the current instant,
leaving the other stamp untouched; and along every monotone sequence of
operations from a timestamp-sane state, every record carrying both
stamps has `checkInTime ≤ checkOutTime`. -/
theorem checkin_checkout_guarded_and_stamped (r : Role) (now j : Nat)
    (vs : List Visitor) (hU : idsNodup Visitor.id vs) :
    (statusOf j vs ≠ some VStatus.Approved → checkInOp r now j vs = vs) ∧
    (statusOf j vs ≠ some VStatus.CheckedIn → checkOutOp r now j vs = vs) ∧
    (canCheckIn r = true → statusOf j vs = some VStatus.Approved →
      statusOf j (checkInOp r now j vs) = some VStatus.CheckedIn ∧
      checkInTimeOf j (checkInOp r now j vs) = some now ∧
      checkOutTimeOf j (checkInOp r now j vs) = checkOutTimeOf j vs) ∧
    (canCheckIn r = true → statusOf j vs = some VStatus.CheckedIn →
      statusOf j (checkOutOp r now j vs) = some VStatus.CheckedOut ∧
      checkOutTimeOf j (checkOutOp r now j vs) = some now ∧
      checkInTimeOf j (checkOutOp r now j vs) = checkInTimeOf j vs) ∧
    (∀ (t0 : Nat) (calls : List Call), seqFresh vs calls = true →
      timeInv t0 vs = true → callsMono t0 calls = true →
      stampsOrdered (applySeq vs calls) = true) := by
  refine ⟨?_, ?_, ?_, ?_, ?_⟩
  · intro hns
    have hany := any_status_false_of_statusOf_ne hU hns
    simp [checkInOp, hany]
  · intro hns
    have hany := any_status_false_of_statusOf_ne hU hns
    simp [checkOutOp, hany]
  · intro hcr hs
    obtain ⟨b, hbmem, hbid, hbst⟩ := statusOf_find hs
    have hany : (vs.any fun v => v.id == j && decide (v.status = VStatus.Approved)) = true := by
      rw [List.any_eq_true]
      exact ⟨b, hbmem, by simp [hbid, hbst]⟩
    have hop : checkInOp r now j vs = handleCheckIn now j vs := by
      rw [checkInOp, if_pos (by simp [hcr, hany])]
    rw [hop]
    have hp : ∀ v : Visitor,
        ((if v.id = j then
            ({ v with status := VStatus.CheckedIn, checkInTime := some now } : Visitor)
          else v).id == j) = (v.id == j) := by
      intro v
      by_cases hv : v.id = j
      · rw [if_pos hv]
      · rw [if_neg hv]
    rw [statusOf] at hs
    cases hfind : vs.find? fun v => v.id == j with
    | none =>
      rw [hfind] at hs
      exact absurd hs (by simp)
    | some b0 =>
      have hb0id : b0.id = j := by simpa using List.find?_some hfind
      have hmfind : (handleCheckIn now j vs).find? (fun v => v.id == j) =
          some { b0 with status := VStatus.CheckedIn, checkInTime := some now } := by
        rw [handleCheckIn, find?_map_of_pred_inv hp, hfind]
        simp only [Option.map]
        rw [if_pos hb0id]
      refine ⟨?_, ?_, ?_⟩
      · rw [statusOf, hmfind]
        rfl
      · rw [checkInTimeOf, hmfind]
        rfl
      · rw [checkOutTimeOf, checkOutTimeOf, hmfind, hfind]
        rfl
  · intro hcr hs
    obtain ⟨b, hbmem, hbid, hbst⟩ := statusOf_find hs
    have hany : (vs.any fun v => v.id == j && decide (v.status = VStatus.CheckedIn)) = true := by
      rw [List.any_eq_true]
      exact ⟨b, hbmem, by simp [hbid, hbst]⟩
    have hop : checkOutOp r now j vs = handleCheckOut now j vs := by
      rw [checkOutOp, if_pos (by simp [hcr, hany])]
    rw [hop]
    have hp : ∀ v : Visitor,
        ((if v.id = j then
            ({ v with status := VStatus.CheckedOut, checkOutTime := some now } : Visitor)
          else v).id == j) = (v.id == j) := by
      intro v
      by_cases hv : v.id = j
      · rw [if_pos hv]
      · rw [if_neg hv]
    rw [statusOf] at hs
    cases hfind : vs.find? fun v => v.id == j with
    | none =>
      rw [hfind] at hs
      exact absurd hs (by simp)
    | some b0 =>
      have hb0id : b0.id = j := by simpa using List.find?_some hfind
      have hmfind : (handleCheckOut now j vs).find? (fun v => v.id == j) =
          some { b0 with status := VStatus.CheckedOut, checkOutTime := some now } := by
        rw [handleCheckOut, find?_map_of_pred_inv hp, hfind]
        simp only [Option.map]
        rw [if_pos hb0id]
      refine ⟨?_, ?_, ?_⟩
      · rw [statusOf, hmfind]
        rfl
      · rw [checkOutTimeOf, hmfind]
        rfl
      · rw [checkInTimeOf, checkInTimeOf, hmfind, hfind]
        rfl
  · intro t0 calls hF hInv hM
    exact stampsOrdered_of_timeInv (timeInv_applySeq calls vs t0 hU hF hInv hM)

/-- Witness for C4: checking in the Approved seed ALICE stamps her
check-in time with the instant 6; a check-out attempt on the Pending
CHARLIE is a no-op; and the full approve/check-in/check-out run on
CHARLIE yields ordered stamps. -/
theorem checkin_checkout_guarded_and_stamped_witness :
    statusOf 1 (checkInOp Role.Security 6 1 [aliceV]) = some VStatus.CheckedIn ∧
    checkInTimeOf 1 (checkInOp Role.Security 6 1 [aliceV]) = some 6 ∧
    checkOutOp Role.Security 7 3 [charlieV] = [charlieV] ∧
    stampsOrdered (applySeq [charlieV]
      [⟨Role.Officer, 5, Op.approve 3⟩, ⟨Role.Security, 6, Op.checkIn 3⟩,
       ⟨Role.Security, 7, Op.checkOut 3⟩]) = true := by
  have h1 := checkin_checkout_guarded_and_stamped Role.Security 6 1 [aliceV] (by decide)
  have h2 := checkin_checkout_guarded_and_stamped Role.Security 7 3 [charlieV] (by decide)
  obtain ⟨hstat, htime, _⟩ := h1.2.2.1 (by decide) (by decide)
  refine ⟨hstat, htime, h2.2.1 (by decide), ?_⟩
  exact h2.2.2.2.2 0 _ (by decide) (by decide) (by decide)

/-! ## C5: adminReplied locks a thread against resident replies -/

/-- An id-preserving, latch-preserving per-thread update keeps
`adminRepliedAt` true. -/
theorem adminRepliedAt_map_pres {g : PendingChat → PendingChat}
    (hg : ∀ x, (g x).id = x.id)
    (hA : ∀ x, x.adminReplied = true → (g x).adminReplied = true)
    (j cid : Nat) (chats : List PendingChat)
    (h : adminRepliedAt cid chats = true) :
    adminRepliedAt cid (chats.map fun x => if x.id = j then g x else x) = true := by
  have hp : ∀ x : PendingChat,
      ((if x.id = j then g x else x).id == cid) = (x.id == cid) := by
    intro x
    by_cases hx : x.id = j
    · rw [if_pos hx, hg x]
    · rw [if_neg hx]
  rw [adminRepliedAt, find?_map_of_pred_inv hp]
  rw [adminRepliedAt] at h
  cases hfind : chats.find? fun x => x.id == cid with
  | none =>
    rw [hfind] at h
    exact absurd h (by simp [Option.any])
  | some b =>
    rw [hfind] at h
    simp only [Option.any] at h
    simp only [Option.map, Option.any]
    by_cases hx : b.id = j
    · rw [if_pos hx]
      exact hA b h
    · rw [if_neg hx]
      exact h

/-- C5: once a thread has `adminReplied`, a userReply from the owning
Resident is refused (the chat form is replaced by the read-only footer,
so `handleUserChatSubmit` cannot fire) and the whole pending-chats
collection, in particular that thread's messages, is unchanged; and the
latch survives every further chat operation, so the refusal holds for
every subsequent reply as well. -/
theorem adminreplied_locks_thread (cid : Nat) (input : String)
    (reply : Except Unit String) (chats : List PendingChat) (c : PendingChat)
    (hfind : chats.find? (fun x => x.id == cid) = some c)
    (hA : c.adminReplied = true) :
    userReplyOp Role.Resident cid input reply chats = chats ∧
    ∀ call : ChatCall, adminRepliedAt cid (applyChatCall chats call) = true := by
  have hAt : adminRepliedAt cid chats = true := by
    rw [adminRepliedAt, hfind]
    simp only [Option.any]
    exact hA
  constructor
  · rw [userReplyOp, if_pos]
    rw [hfind]
    simp only [Option.any]
    simp [hA]
  · intro call
    cases call with
    | userReply r acid input2 reply2 =>
      simp only [applyChatCall, userReplyOp]
      split
      · exact hAt
      · cases reply2 with
        | ok botText =>
          simp only [handleUserChatSubmit]
          split
          · exact hAt
          · exact adminRepliedAt_map_pres
              (g := fun x => { x with messages := x.messages ++
                [⟨Sender.user, strTrim input2⟩, ⟨Sender.bot, botText⟩] })
              (fun x => rfl) (fun x hx => hx) acid cid chats hAt
        | error e =>
          simp only [handleUserChatSubmit]
          split
          · exact hAt
          · exact adminRepliedAt_map_pres
              (g := fun x => { x with messages := x.messages ++
                [⟨Sender.user, strTrim input2⟩] })
              (fun x => rfl) (fun x hx => hx) acid cid chats hAt
    | adminReply vcid input2 =>
      simp only [applyChatCall, handleAdminChatSubmit]
      split
      · exact hAt
      · exact adminRepliedAt_map_pres
          (g := fun x => { x with messages := x.messages ++
            [⟨Sender.admin, strTrim input2⟩], adminReplied := true })
          (fun x => rfl) (fun x _ => rfl) vcid cid chats hAt
    | dismiss did =>
      simp only [applyChatCall, handleDismissChat]
      exact adminRepliedAt_map_pres (g := fun x => { x with dismissed := true })
        (fun x => rfl) (fun x hx => hx) did cid chats hAt

/-- Witness for C5: a locked two-message thread (id 5) refuses the
resident reply and keeps its messages. -/
theorem adminreplied_locks_thread_witness :
    userReplyOp Role.Resident 5 "are you there" (Except.ok "hello")
      [lockedSeedChat] = [lockedSeedChat] :=
  (adminreplied_locks_thread 5 "are you there" (Except.ok "hello")
    [lockedSeedChat] lockedSeedChat (by decide) (by decide)).1

/-! ## C6: deleteUser protections -/

/-- Admin count of a cons. -/
theorem countAdmins_cons (a : User) (l : List User) :
    countAdmins (a :: l) = (if a.role = Role.Admin then 1 else 0) + countAdmins l := by
  by_cases h : a.role = Role.Admin
  · simp [countAdmins, List.filter_cons, h, Nat.add_comm]
  · simp [countAdmins, List.filter_cons, h]

/-- Filtering out the unique carrier of id `t`, an Admin, lowers the
Admin count and the size by exactly one. -/
theorem filter_out_unique_admin (t : Nat) (users : List User) (u : User)
    (hU : idsNodup User.id users) (hmem : u ∈ users) (hid : u.id = t)
    (hrole : u.role = Role.Admin) :
    countAdmins (users.filter fun x => !(x.id == t)) + 1 = countAdmins users ∧
    (users.filter fun x => !(x.id == t)).length + 1 = users.length := by
  induction users with
  | nil => cases hmem
  | cons a l ih =>
    rw [idsNodup, List.map_cons, List.nodup_cons] at hU
    obtain ⟨hna, hnl⟩ := hU
    rcases List.mem_cons.mp hmem with heq | hmem2
    · have hat : a.id = t := by rw [← heq, hid]
      have hfl : ∀ x ∈ l, x.id ≠ t := by
        intro x hx hxt
        exact hna (List.mem_map.mpr ⟨x, hx, by rw [hxt, ← hat]⟩)
      have hkeep : l.filter (fun x => !(x.id == t)) = l :=
        List.filter_eq_self.mpr fun x hx => by simp [hfl x hx]
      have harole : a.role = Role.Admin := by rw [← heq, hrole]
      constructor
      · rw [List.filter_cons, if_neg (by simp [hat]), hkeep,
          countAdmins_cons, if_pos harole, Nat.add_comm]
      · rw [List.filter_cons, if_neg (by simp [hat]), hkeep, List.length_cons]
    · have hat : a.id ≠ t := by
        intro hxt
        exact hna (List.mem_map.mpr ⟨u, hmem2, by rw [hid, ← hxt]⟩)
      obtain ⟨ihc, ihl⟩ := ih hnl hmem2
      constructor
      · rw [List.filter_cons, if_pos (by simp [hat]), countAdmins_cons,
          countAdmins_cons, Nat.add_assoc, ihc]
      · rw [List.filter_cons, if_pos (by simp [hat]), List.length_cons,
          List.length_cons, Nat.add_right_comm, ihl]

/-- C6: deleteUser (with the browser confirm answered yes) always fails
with the user list unchanged when the target is the acting user or when
the target is the sole remaining Admin; deleting an Admin who is neither
the acting user nor the sole Admin removes exactly that user and lowers
the Admin count by exactly one. -/
theorem deleteUser_rules (selfId targetId : Nat) (users : List User) :
    (targetId = selfId → handleDeleteUser selfId targetId users = users) ∧
    (∀ u, users.find? (fun x => x.id == targetId) = some u → u.role = Role.Admin →
      countAdmins users ≤ 1 → handleDeleteUser selfId targetId users = users) ∧
    (∀ u, idsNodup User.id users → users.find? (fun x => x.id == targetId) = some u →
      u.role = Role.Admin → 2 ≤ countAdmins users → targetId ≠ selfId →
      handleDeleteUser selfId targetId users =
        (users.filter fun x => !(x.id == targetId)) ∧
      countAdmins (handleDeleteUser selfId targetId users) + 1 = countAdmins users ∧
      (handleDeleteUser selfId targetId users).length + 1 = users.length) := by
  refine ⟨?_, ?_, ?_⟩
  · intro hts
    rw [handleDeleteUser.eq_def]
    cases hfind : users.find? fun x => x.id == targetId with
    | none => rfl
    | some u =>
      have huid : u.id = targetId := by simpa using List.find?_some hfind
      simp only
      rw [if_pos (huid.trans hts)]
  · intro u hfind hrole hcount
    have huid : u.id = targetId := by simpa using List.find?_some hfind
    rw [handleDeleteUser.eq_def, hfind]
    simp only
    by_cases hself : u.id = selfId
    · rw [if_pos hself]
    · rw [if_neg hself, if_pos ⟨hrole, hcount⟩]
  · intro u hU hfind hrole hcount hts
    have huid : u.id = targetId := by simpa using List.find?_some hfind
    have hmem : u ∈ users := List.mem_of_find?_eq_some hfind
    have hdel : handleDeleteUser selfId targetId users =
        users.filter fun x => !(x.id == targetId) := by
      rw [handleDeleteUser.eq_def, hfind]
      simp only
      rw [if_neg (fun h => hts (huid.symm.trans h)), if_neg (by omega)]
    obtain ⟨hc, hl⟩ := filter_out_unique_admin targetId users u hU hmem huid hrole
    rw [hdel]
    exact ⟨rfl, hc, hl⟩

/-- Witness for C6 on the seed store: self-delete of the only Admin
(id 1) fails, deleting the sole Admin as another actor fails, and with a
second Admin present the delete succeeds and lowers the Admin count from
2 to 1. -/
theorem deleteUser_rules_witness :
    handleDeleteUser 1 1 mockUsers = mockUsers ∧
    handleDeleteUser 2 1 mockUsers = mockUsers ∧
    countAdmins (handleDeleteUser 1 6 mockUsersPlusAdmin) + 1 =
      countAdmins mockUsersPlusAdmin ∧
    (handleDeleteUser 1 6 mockUsersPlusAdmin).length + 1 =
      mockUsersPlusAdmin.length := by
  refine ⟨(deleteUser_rules 1 1 mockUsers).1 rfl, ?_, ?_, ?_⟩
  · exact (deleteUser_rules 2 1 mockUsers).2.1
      { id := 1, username := "admin", password := "password", role := Role.Admin,
        unitNo := none } (by decide) (by decide) (by decide)
  · exact ((deleteUser_rules 1 6 mockUsersPlusAdmin).2.2
      { id := 6, username := "admin2", password := "password", role := Role.Admin,
        unitNo := none } (by decide) (by decide) (by decide) (by decide)
      (by decide)).2.1
  · exact ((deleteUser_rules 1 6 mockUsersPlusAdmin).2.2
      { id := 6, username := "admin2", password := "password", role := Role.Admin,
        unitNo := none } (by decide) (by decide) (by decide) (by decide)
      (by decide)).2.2

/-! ## C7: changeRole and the last-Admin protection -/

/-- C7: with a real acting user (nonzero id, as all seeded ids are),
`handleRoleChange` fails with the last-administrator alert exactly when
the change targets the acting user, moves away from Admin and at most
one Admin exists; on that failure the user list is unchanged; and once a
second Admin exists the same self role-change is applied to the target
user. -/
theorem roleChange_lastAdmin_rules (selfId targetId : Nat) (newRole : Role)
    (users : List User) (hself : selfId ≠ 0) :
    ((handleRoleChange selfId targetId newRole users =
        RoleChangeOutcome.lastAdminProtected) ↔
      (targetId = selfId ∧ newRole ≠ Role.Admin ∧ countAdmins users ≤ 1)) ∧
    ((targetId = selfId ∧ newRole ≠ Role.Admin ∧ countAdmins users ≤ 1) →
      usersAfterRoleChange selfId targetId newRole users = users) ∧
    (∀ u, users.find? (fun x => x.id == targetId) = some u → targetId = selfId →
      2 ≤ countAdmins users →
      handleRoleChange selfId targetId newRole users =
        RoleChangeOutcome.changed
          (users.map fun x => if x.id = targetId then { x with role := newRole } else x) ∧
      roleOf targetId (usersAfterRoleChange selfId targetId newRole users) =
        some newRole) := by
  have hiff : (handleRoleChange selfId targetId newRole users =
      RoleChangeOutcome.lastAdminProtected) ↔
      (targetId = selfId ∧ newRole ≠ Role.Admin ∧ countAdmins users ≤ 1) := by
    rw [handleRoleChange]
    constructor
    · intro h
      by_cases h0 : targetId = 0
      · rw [if_pos h0] at h
        cases h
      · rw [if_neg h0] at h
        by_cases hc : targetId = selfId ∧ newRole ≠ Role.Admin ∧ countAdmins users ≤ 1
        · exact hc
        · rw [if_neg hc] at h
          cases h
    · intro hc
      have h0 : targetId ≠ 0 := by
        rw [hc.1]
        exact hself
      rw [if_neg h0, if_pos hc]
  refine ⟨hiff, ?_, ?_⟩
  · intro hc
    rw [usersAfterRoleChange, hiff.mpr hc]
  · intro u hfind hts hcount
    have hch : handleRoleChange selfId targetId newRole users =
        RoleChangeOutcome.changed
          (users.map fun x => if x.id = targetId then { x with role := newRole } else x) := by
      rw [handleRoleChange, if_neg (by rw [hts]; exact hself),
        if_neg (by intro hc; omega)]
    refine ⟨hch, ?_⟩
    rw [usersAfterRoleChange, hch]
    have hp : ∀ x : User,
        ((if x.id = targetId then ({ x with role := newRole } : User) else x).id == targetId) =
          (x.id == targetId) := by
      intro x
      by_cases hx : x.id = targetId
      · rw [if_pos hx]
      · rw [if_neg hx]
    rw [roleOf, find?_map_of_pred_inv hp, hfind]
    have huid : u.id = targetId := by simpa using List.find?_some hfind
    simp only [Option.map]
    rw [if_pos huid]

/-- Witness for C7, the specification scenario: with the single seed
Admin (id 1), a self change to Security is last-Admin protected and
leaves the store unchanged; after adding a second Admin (id 6) the same
change succeeds and the acting user now has role Security. -/
theorem roleChange_lastAdmin_rules_witness :
    handleRoleChange 1 1 Role.Security mockUsers =
      RoleChangeOutcome.lastAdminProtected ∧
    usersAfterRoleChange 1 1 Role.Security mockUsers = mockUsers ∧
    roleOf 1 (usersAfterRoleChange 1 1 Role.Security mockUsersPlusAdmin) =
      some Role.Security := by
  have h1 := roleChange_lastAdmin_rules 1 1 Role.Security mockUsers (by decide)
  have h2 := roleChange_lastAdmin_rules 1 1 Role.Security mockUsersPlusAdmin (by decide)
  refine ⟨h1.1.mpr (by decide), h1.2.1 (by decide), ?_⟩
  exact (h2.2.2
    { id := 1, username := "admin", password := "password", role := Role.Admin,
      unitNo := none } (by decide) rfl (by decide)).2

/-! ## C8: addUnit validation, duplicates and sort order -/

/-- C8: addUnit fails with the missing-field alert when block or house
number is empty after trimming and with the duplicate alert when the
exact (block, houseNo) pair already exists, leaving the registry
unchanged in both cases; every successful add returns a permutation of
the registry plus the new unit that is sorted by block (lexicographic)
and then houseNo (numeric-aware). -/
theorem addUnit_rules (blockRaw houseNoRaw : String) (units : List PredefinedUnit) :
    ((strUpper (strTrim blockRaw) = "" ∨ strTrim houseNoRaw = "") →
      handleAddUnitSubmit blockRaw houseNoRaw units = AddUnitOutcome.missingField ∧
      unitsAfterAdd blockRaw houseNoRaw units = units) ∧
    (¬(strUpper (strTrim blockRaw) = "" ∨ strTrim houseNoRaw = "") →
      (units.any fun u => u.block == strUpper (strTrim blockRaw) &&
          u.houseNo == strTrim houseNoRaw) = true →
      handleAddUnitSubmit blockRaw houseNoRaw units = AddUnitOutcome.duplicateUnit ∧
      unitsAfterAdd blockRaw houseNoRaw units = units) ∧
    (∀ l, handleAddUnitSubmit blockRaw houseNoRaw units = AddUnitOutcome.added l →
      l.Sorted unitLeR ∧
      l.Perm (units ++ [newUnitOf blockRaw houseNoRaw])) := by
  refine ⟨?_, ?_, ?_⟩
  · intro h1
    have hout : handleAddUnitSubmit blockRaw houseNoRaw units =
        AddUnitOutcome.missingField := by
      simp only [handleAddUnitSubmit]
      rw [if_pos h1]
    exact ⟨hout, by rw [unitsAfterAdd, hout]⟩
  · intro h1 h2
    have hout : handleAddUnitSubmit blockRaw houseNoRaw units =
        AddUnitOutcome.duplicateUnit := by
      simp only [handleAddUnitSubmit]
      rw [if_neg h1, if_pos h2]
    exact ⟨hout, by rw [unitsAfterAdd, hout]⟩
  · intro l hl
    simp only [handleAddUnitSubmit] at hl
    by_cases h1 : strUpper (strTrim blockRaw) = "" ∨ strTrim houseNoRaw = ""
    · rw [if_pos h1] at hl
      cases hl
    · rw [if_neg h1] at hl
      by_cases h2 : (units.any fun u => u.block == strUpper (strTrim blockRaw) &&
          u.houseNo == strTrim houseNoRaw) = true
      · rw [if_pos h2] at hl
        cases hl
      · rw [if_neg h2] at hl
        have hsort := AddUnitOutcome.added.inj hl
        rw [← hsort]
        exact ⟨List.sorted_insertionSort unitLeR _, List.perm_insertionSort unitLeR _⟩

/-- Witness for C8: a blank block is refused; re-adding A-101 next to an
existing A-101 is refused with the registry size unchanged; and adding
house 9 to a registry holding A-10 sorts 9 before 10 (numeric-aware)
while B-1 stays after every A unit. -/
theorem addUnit_rules_witness :
    handleAddUnitSubmit ("  ") ("9") [] = AddUnitOutcome.missingField ∧
    handleAddUnitSubmit (" a ") ("101") [⟨"A", "101"⟩] =
      AddUnitOutcome.duplicateUnit ∧
    unitsAfterAdd (" a ") ("101") [⟨"A", "101"⟩] = [⟨"A", "101"⟩] ∧
    handleAddUnitSubmit ("A") ("9") [⟨"A", "10"⟩, ⟨"B", "1"⟩] =
      AddUnitOutcome.added [⟨"A", "9"⟩, ⟨"A", "10"⟩, ⟨"B", "1"⟩] ∧
    ([⟨"A", "9"⟩, ⟨"A", "10"⟩, ⟨"B", "1"⟩] : List PredefinedUnit).Sorted unitLeR ∧
    ¬ unitLeR ⟨"A", "10"⟩ ⟨"A", "9"⟩ := by
  refine ⟨?_, ?_, ?_, by decide, ?_, by decide⟩
  · exact ((addUnit_rules ("  ") ("9") []).1 (by decide)).1
  · exact ((addUnit_rules (" a ") ("101") [⟨"A", "101"⟩]).2.1
      (by decide) (by decide)).1
  · exact ((addUnit_rules (" a ") ("101") [⟨"A", "101"⟩]).2.1
      (by decide) (by decide)).2
  · exact ((addUnit_rules ("A") ("9") [⟨"A", "10"⟩, ⟨"B", "1"⟩]).2.2
      [⟨"A", "9"⟩, ⟨"A", "10"⟩, ⟨"B", "1"⟩] (by decide)).1

/-! ## C9: startThread under collaborator failure -/

/-- Counterexample to C9 as stated: at a concrete valid form submission
whose collaborator call fails, no PendingChat is created at all — the
catch block of `handleStartChatSubmit` updates only the ephemeral
`chatMessages`, so `state.pendingChats` stays empty and there is no
thread containing the user's first message. -/
theorem startThread_failure_no_thread_counterexample :
    (handleStartChatSubmit (some 4) ("resident101") ("A") ("101")
        ("Is my guest here?") 99 (Except.error ()) [] none []).pendingChats = [] ∧
    (handleStartChatSubmit (some 4) ("resident101") ("A") ("101")
        ("Is my guest here?") 99 (Except.error ()) [] none []).chatMessages =
      [⟨Sender.user, "Is my guest here?"⟩, ⟨Sender.bot, apologyText⟩] := by
  constructor
  · decide
  · decide

/-- C9 (amended): when the collaborator fails during startThread, the
apology is appended as a bot message to the visible transcript instead
of a reply, but no PendingChat is created — the pending-chats
collection is unchanged (a thread reaches it only on a successful
reply). -/
theorem startThread_failure_apology_no_thread (userId : Option Nat)
    (name block houseNo rawQuery : String) (newChatId : Nat)
    (msgs0 : List ChatMessage) (active0 : Option Nat) (chats : List PendingChat)
    (h1 : name ≠ "") (h2 : block ≠ "") (h3 : houseNo ≠ "")
    (h4 : strTrim rawQuery ≠ "") :
    (handleStartChatSubmit userId name block houseNo rawQuery newChatId
        (Except.error ()) msgs0 active0 chats).pendingChats = chats ∧
    (handleStartChatSubmit userId name block houseNo rawQuery newChatId
        (Except.error ()) msgs0 active0 chats).chatMessages =
      [⟨Sender.user, strTrim rawQuery⟩, ⟨Sender.bot, apologyText⟩] := by
  have hc : ¬(name = "" ∨ block = "" ∨ houseNo = "" ∨ strTrim rawQuery = "") := by
    simp [h1, h2, h3, h4]
  simp only [handleStartChatSubmit]
  rw [if_neg hc]
  exact ⟨rfl, rfl⟩

/-- Witness for the amended C9 at the counterexample's input with a
nonempty prior chat list. -/
theorem startThread_failure_apology_no_thread_witness :
    (handleStartChatSubmit (some 4) ("resident101") ("A") ("101")
        ("Is my guest here?") 99 (Except.error ()) [] none
        [lockedSeedChat]).pendingChats = [lockedSeedChat] ∧
    (handleStartChatSubmit (some 4) ("resident101") ("A") ("101")
        ("Is my guest here?") 99 (Except.error ()) [] none
        [lockedSeedChat]).chatMessages =
      [⟨Sender.user, "Is my guest here?"⟩, ⟨Sender.bot, apologyText⟩] := by
  have h := startThread_failure_apology_no_thread (some 4) ("resident101") ("A")
    ("101") ("Is my guest here?") 99 [] none [lockedSeedChat]
    (by decide) (by decide) (by decide) (by decide)
  exact ⟨h.1, by rw [h.2]; decide⟩
